import Mathlib

/-!
# Verification of the Asmr_Library playback core

Shallow embedding of the player store (`src/App.tsx`, `usePlayerStore`), the
PlayerBar load / sleep-timer / visualizer logic
(`src/components/PlayerBar.tsx`) and the cascade-delete structure of the
SQLite schema (`src-tauri/migrations/*.sql`), together with proofs of the
specified transport, backend-selection, timer, spectrum and cascade
properties.

JavaScript numbers that only ever hold fractional seconds or volumes are
modelled as rationals; database / track ids as integers.
-/

namespace AsmrLibrary

/-- `RepeatMode` from `App.tsx`: `'off' | 'all' | 'one'`. -/
inductive RepeatMode where
  | off
  | all
  | one
deriving DecidableEq, Repr, BEq

/-- The `Track` interface of the player store in `App.tsx`. -/
structure Track where
  id : Int
  title : String
  path : String
  duration : ℚ
  work_title : Option String := none
  cover_path : Option String := none
  work_id : Option Int := none
deriving DecidableEq, Repr

/-- The data fields of `PlayerState` in `App.tsx` (`usePlayerStore`). -/
structure PlayerState where
  isPlaying : Bool
  currentTrack : Option Track
  queue : List Track
  volume : ℚ
  currentTime : ℚ
  duration : ℚ
  shuffle : Bool
  repeatMode : RepeatMode
deriving DecidableEq, Repr

/-- JavaScript `Array.prototype.findIndex` / `indexOf`: index of the first
element satisfying `p`, or `-1` when there is none. -/
def findIndexJs {α : Type} (p : α → Bool) (l : List α) : Int :=
  match l.findIdx? p with
  | some i => (i : Int)
  | none => -1

/-- The `modes` array in `cycleRepeatMode` (`App.tsx`). -/
def repeatModes : List RepeatMode := [RepeatMode.off, RepeatMode.all, RepeatMode.one]

/-- `cycleRepeatMode` from `App.tsx`: advance `repeatMode` to
`modes[(modes.indexOf(current) + 1) % modes.length]`. -/
def cycleRepeatMode (s : PlayerState) : PlayerState :=
  let currentIndex : Int := findIndexJs (fun m => m == s.repeatMode) repeatModes
  let nextIndex : Int := (currentIndex + 1) % (repeatModes.length : Int)
  { s with repeatMode := (repeatModes.get? nextIndex.toNat).getD RepeatMode.off }

/-- The index list `queue.map((_, i) => i).filter(i => i !== currentIndex)`
built in the shuffle branch of `playNext` (`App.tsx`). -/
def otherIndices (n : Nat) (currentIndex : Int) : List Nat :=
  (List.range n).filter (fun i => (i : Int) != currentIndex)

/-- `playNext` from `App.tsx`.  The single call to `Math.random()` is
modelled by the parameter `rand`: the drawn array index
`Math.floor(Math.random() * otherIndices.length)` is uniform on
`[0, otherIndices.length)` and is represented here as
`rand % otherIndices.length`. -/
def playNext (rand : Nat) (s : PlayerState) : PlayerState :=
  match s.currentTrack with
  | none => s
  | some ct =>
    if s.queue.length = 0 then s
    else
      let currentIndex : Int := findIndexJs (fun t => t.id == ct.id) s.queue
      if s.repeatMode = RepeatMode.one then
        -- `set({ currentTrack: { ...currentTrack }, isPlaying: true })`
        { s with currentTrack := some ct, isPlaying := true }
      else
        let next? : Option Int :=
          if s.shuffle then
            let others := otherIndices s.queue.length currentIndex
            if others.length = 0 then none
            else (others.get? (rand % others.length)).map (fun i => (i : Int))
          else some (currentIndex + 1)
        match next? with
        | none => s
        | some n0 =>
          let wrapped? : Option Int :=
            if (s.queue.length : Int) ≤ n0 then
              if s.repeatMode = RepeatMode.all then some 0 else none
            else some n0
          match wrapped? with
          | none => s
          | some i => { s with currentTrack := s.queue.get? i.toNat, isPlaying := true }

/-- `playPrev` from `App.tsx`. -/
def playPrev (s : PlayerState) : PlayerState :=
  match s.currentTrack with
  | none => s
  | some ct =>
    if 3 < s.currentTime then
      -- `set({ currentTrack: { ...currentTrack }, isPlaying: true })`
      { s with currentTrack := some ct, isPlaying := true }
    else
      let index : Int := findIndexJs (fun t => t.id == ct.id) s.queue
      if 0 < index then
        { s with currentTrack := s.queue.get? (index - 1).toNat, isPlaying := true }
      else s

/-! ### Concrete example data (used by the witness theorems) -/

/-- A sample lossless track (native-backend extension). -/
def ta : Track := { id := 1, title := "a", path := "x/01.flac", duration := 1 }

/-- A second sample track (native-backend extension). -/
def tb : Track := { id := 2, title := "b", path := "x/02.ogg", duration := 2 }

/-- A third sample track (fallback-backend extension). -/
def tc : Track := { id := 3, title := "c", path := "x/03.m4a", duration := 3 }

/-- The initial player state of `usePlayerStore` (`App.tsx`). -/
def initialState : PlayerState :=
  { isPlaying := false, currentTrack := none, queue := [], volume := 1,
    currentTime := 0, duration := 0, shuffle := false, repeatMode := RepeatMode.off }

/-! ## PlayerBar (`src/components/PlayerBar.tsx`) -/

/-- `PlaybackMode` from `PlayerBar.tsx`: `'rust' | 'web' | null` (the `null`
case is represented by `Option PlaybackMode`). -/
inductive PlaybackMode where
  | rust
  | web
deriving DecidableEq, Repr, BEq

/-- The extension allow-list `['m4a', 'mp4', 'aac']` checked in the track
load effect of `PlayerBar.tsx`. -/
def webAudioExts : List String := ["m4a", "mp4", "aac"]

/-- JavaScript `String.prototype.split('.')`, at the character level: the
result always has at least one (possibly empty) segment, and adjacent dots
produce empty segments, exactly as in JS. -/
def splitOnDot : List Char → List (List Char)
  | [] => [[]]
  | c :: cs =>
    let rest := splitOnDot cs
    if c = '.' then [] :: rest
    else
      match rest with
      | [] => [[c]]
      | seg :: segs => (c :: seg) :: segs

/-- `currentTrack.path.split('.').pop()?.toLowerCase()` followed by
`ext || ''`: the lowercased last dot-separated component of the path
(every path in play has an ASCII extension, for which JS `toLowerCase`
agrees with `Char.toLower`). -/
def extOf (path : String) : String :=
  String.mk (((splitOnDot path.toList).getLastD []).map Char.toLower)

/-- `const useWebAudio = ['m4a', 'mp4', 'aac'].includes(ext || '')`. -/
def useWebAudio (path : String) : Bool :=
  webAudioExts.contains (extOf path)

/-- The sequence of decode backends the load effect of `PlayerBar.tsx`
attempts for a track at `path`.  `nativeLoadOk` records whether the
`invoke('play_track', …)` promise resolves; on rejection the `.catch`
handler falls back to `playWithWebAudio`. -/
def loadBackendAttempts (nativeLoadOk : Bool) (path : String) : List PlaybackMode :=
  if useWebAudio path then [PlaybackMode.web]
  else if nativeLoadOk then [PlaybackMode.rust]
  else [PlaybackMode.rust, PlaybackMode.web]

/-- The `PlayerBar` local state touched synchronously by the track load
effect (`useEffect` on `[currentTrack]`). -/
structure UiState where
  currentTime : ℚ
  duration : ℚ
  playbackMode : Option PlaybackMode
deriving DecidableEq, Repr

/-- The synchronous body of the load effect for a (changed) `currentTrack`:
`setCurrentTime(0); setDuration(currentTrack.duration || 0);
setPlaybackMode(null)`. -/
def trackChangeReset (t : Track) (_ui : UiState) : UiState :=
  { currentTime := 0
    duration := if t.duration == 0 then 0 else t.duration
    playbackMode := none }

/-- Whether `playPrev` executes one of its two `set({ currentTrack: … })`
calls.  In both cases the store receives a fresh object reference (a spread
copy, or a queue slot whose id differs from the current track's), so the
`PlayerBar` effect keyed on `[currentTrack]` re-fires exactly when this
predicate holds. -/
def playPrevWrites (s : PlayerState) : Bool :=
  match s.currentTrack with
  | none => false
  | some ct =>
    if 3 < s.currentTime then true
    else 0 < findIndexJs (fun t => t.id == ct.id) s.queue

/-- `playPrev` together with the `PlayerBar` track load effect it triggers:
when the store write replaces `currentTrack` (fresh reference) and the new
track has a non-empty `path`, the effect resets the UI position. -/
def playPrevSys (s : PlayerState) (ui : UiState) : PlayerState × UiState :=
  let s' := playPrev s
  if playPrevWrites s then
    match s'.currentTrack with
    | some t => if t.path ≠ "" then (s', trackChangeReset t ui) else (s', ui)
    | none => (s', ui)
  else (s', ui)

/-! ### Sleep timer -/

/-- The preset minute values offered by the sleep-timer menu in
`PlayerBar.tsx` (`{ label: '15分', value: 15 }, …`). -/
def sleepMenuPresets : List Int := [15, 30, 45, 60, 90]

/-- The sleep-timer-relevant state: `sleepTimerSeconds` (`number | null`)
and the store's `isPlaying` flag. -/
structure SleepTimerState where
  sleepTimerSeconds : Option Int
  isPlaying : Bool
deriving DecidableEq, Repr

/-- `setSleepTimer(minutes)` from `PlayerBar.tsx`: `null` clears the timer,
a minute value arms it with `minutes * 60` seconds. -/
def setSleepTimer (minutes : Option Int) (s : SleepTimerState) : SleepTimerState :=
  match minutes with
  | none => { s with sleepTimerSeconds := none }
  | some m => { s with sleepTimerSeconds := some (m * 60) }

/-- One firing of the countdown `setInterval` in `PlayerBar.tsx`.  The
effect is only installed while `sleepTimerSeconds` is non-null and
positive; inside the callback, `prev <= 1` stops playback and clears the
timer, otherwise the timer is decremented by one. -/
def sleepTimerTick (s : SleepTimerState) : SleepTimerState :=
  match s.sleepTimerSeconds with
  | none => s
  | some prev =>
    if prev ≤ 0 then s
    else if prev ≤ 1 then { sleepTimerSeconds := none, isPlaying := false }
    else { s with sleepTimerSeconds := some (prev - 1) }

/-! ### Visualizer (web / fallback spectrum path) -/

/-- `analyserRef.current.fftSize = 256` set in `initAudioContext`. -/
def analyserFftSize : Nat := 256

/-- `AnalyserNode.frequencyBinCount` is half the FFT size (128 bins). -/
def frequencyBinCount : Nat := analyserFftSize / 2

/-- `const showBars = 64` in the `draw` loop of `PlayerBar.tsx`. -/
def showBars : Nat := 64

/-- The web-audio spectrum computed in `draw` from a byte frequency-data
array: `step = Math.floor(bufferLength / showBars)` and
`webSpectrum[i] = data[i * step] / 255.0` for `i < showBars`. -/
def webSpectrum (data : List Nat) : List ℚ :=
  let step := data.length / showBars
  (List.range showBars).map (fun i => (data.getD (i * step) 0 : ℚ) / 255)

/-! ## Catalog schema cascade (`src-tauri/migrations/*.sql`)

One structure per table row, with the columns of the corresponding
`CREATE TABLE`; `DATETIME` columns are opaque timestamps.  Tables that hold
no foreign key into `works` or `tracks` (`tags`, `circles`, `voice_actors`,
`playlists`, `app_settings`) are untouched by a work deletion and are not
modelled. -/

/-- A `works` row (`20241210120000_init.sql`). -/
structure WorkRow where
  id : Int
  rj_code : Option String
  title : String
  dir_path : String
  cover_path : Option String
  created_at : Int
deriving DecidableEq, Repr

/-- A `tracks` row: `FOREIGN KEY (work_id) REFERENCES works(id) ON DELETE CASCADE`. -/
structure TrackRow where
  id : Int
  work_id : Int
  title : String
  path : String
  duration_sec : Int
  track_number : Option Int
  is_visible : Bool
deriving DecidableEq, Repr

/-- A `track_progress` row: cascading foreign keys on both `work_id` and
`track_id`. -/
structure TrackProgressRow where
  work_id : Int
  track_id : Int
  position_sec : ℚ
  updated_at : Int
deriving DecidableEq, Repr

/-- A `play_history` row (`20251217030000_play_history.sql`): cascading
foreign keys on `work_id` and `track_id`. -/
structure PlayHistoryRow where
  id : Int
  work_id : Int
  track_id : Int
  played_at : Int
deriving DecidableEq, Repr

/-- A `playlist_tracks` row (`20251217020000_playlist_tracks.sql`):
cascading foreign keys on `playlist_id` and `track_id`. -/
structure PlaylistTrackRow where
  playlist_id : Int
  track_id : Int
  position : Int
  added_at : Int
deriving DecidableEq, Repr

/-- A `work_tags` row (`20251216020000_add_metadata.sql`). -/
structure WorkTagRow where
  work_id : Int
  tag_id : Int
deriving DecidableEq, Repr

/-- A `work_voice_actors` row. -/
structure WorkVoiceActorRow where
  work_id : Int
  voice_actor_id : Int
deriving DecidableEq, Repr

/-- A `work_circles` row. -/
structure WorkCircleRow where
  work_id : Int
  circle_id : Int
deriving DecidableEq, Repr

/-- The tables reachable from `works` via cascading foreign keys. -/
structure Database where
  works : List WorkRow
  tracks : List TrackRow
  track_progress : List TrackProgressRow
  play_history : List PlayHistoryRow
  playlist_tracks : List PlaylistTrackRow
  work_tags : List WorkTagRow
  work_voice_actors : List WorkVoiceActorRow
  work_circles : List WorkCircleRow
deriving DecidableEq, Repr

/-- The ids of the tracks owned by work `wid`. -/
def workTrackIds (db : Database) (wid : Int) : List Int :=
  (db.tracks.filter (fun t => t.work_id == wid)).map TrackRow.id

/-- SQLite `ON DELETE CASCADE` closure: after parent rows have been
deleted, a `tracks` row whose `work_id` no longer resolves is deleted, and
then every row whose cascading foreign key (`work_id` into `works`,
`track_id` into `tracks`) no longer resolves is deleted in turn. -/
def cascadeClose (db : Database) : Database :=
  let workIds := db.works.map WorkRow.id
  let liveTracks := db.tracks.filter (fun t => workIds.contains t.work_id)
  let trackIds := liveTracks.map TrackRow.id
  { works := db.works
    tracks := liveTracks
    track_progress := db.track_progress.filter
      (fun r => workIds.contains r.work_id && trackIds.contains r.track_id)
    play_history := db.play_history.filter
      (fun r => workIds.contains r.work_id && trackIds.contains r.track_id)
    playlist_tracks := db.playlist_tracks.filter (fun r => trackIds.contains r.track_id)
    work_tags := db.work_tags.filter (fun r => workIds.contains r.work_id)
    work_voice_actors := db.work_voice_actors.filter (fun r => workIds.contains r.work_id)
    work_circles := db.work_circles.filter (fun r => workIds.contains r.work_id) }

/-- `DELETE FROM works WHERE id = wid`, followed by the declared cascades. -/
def deleteWorkCascade (db : Database) (wid : Int) : Database :=
  cascadeClose { db with works := db.works.filter (fun w => w.id != wid) }

/-- A small concrete database: two works, three tracks, and child rows in
every cascading table (used by the C6 witness). -/
def exampleDb : Database :=
  { works := [{ id := 1, rj_code := some "RJ001", title := "w1", dir_path := "d1",
                cover_path := none, created_at := 0 },
              { id := 2, rj_code := none, title := "w2", dir_path := "d2",
                cover_path := none, created_at := 1 }]
    tracks := [{ id := 10, work_id := 1, title := "t10", path := "d1/01.flac",
                 duration_sec := 60, track_number := some 1, is_visible := true },
               { id := 11, work_id := 1, title := "t11", path := "d1/01.mp3",
                 duration_sec := 60, track_number := some 1, is_visible := false },
               { id := 20, work_id := 2, title := "t20", path := "d2/01.wav",
                 duration_sec := 90, track_number := some 1, is_visible := true }]
    track_progress := [{ work_id := 1, track_id := 10, position_sec := 5, updated_at := 2 },
                       { work_id := 2, track_id := 20, position_sec := 7, updated_at := 3 }]
    play_history := [{ id := 1, work_id := 1, track_id := 10, played_at := 4 },
                     { id := 2, work_id := 2, track_id := 20, played_at := 5 }]
    playlist_tracks := [{ playlist_id := 7, track_id := 10, position := 0, added_at := 6 },
                        { playlist_id := 7, track_id := 20, position := 1, added_at := 7 }]
    work_tags := [{ work_id := 1, tag_id := 100 }, { work_id := 2, tag_id := 100 }]
    work_voice_actors := [{ work_id := 1, voice_actor_id := 200 }]
    work_circles := [{ work_id := 1, circle_id := 300 }, { work_id := 2, circle_id := 301 }] }

/-! ## Helper lemmas -/

theorem findIndexJs_eq_of_findIdx? {α : Type} {p : α → Bool} {l : List α} {i : Nat}
    (h : l.findIdx? p = some i) : findIndexJs p l = (i : Int) := by
  simp [findIndexJs, h]

theorem findIdx?_lt_length {α : Type} {p : α → Bool} {l : List α} {i : Nat}
    (h : l.findIdx? p = some i) : i < l.length := by
  obtain ⟨hlt, -⟩ := List.findIdx?_eq_some_iff_getElem.mp h
  exact hlt

theorem mem_otherIndices {n : Nat} {c : Int} {i : Nat} :
    i ∈ otherIndices n c ↔ i < n ∧ (i : Int) ≠ c := by
  simp [otherIndices, List.mem_filter, List.mem_range, bne_iff_ne]

theorem nodup_otherIndices (n : Nat) (c : Int) : (otherIndices n c).Nodup :=
  (List.nodup_range n).filter _

/-! ## Claim theorems -/

/-- C10: `cycleRepeatMode` steps through the fixed order
off → all → one → off; three applications are the identity on the whole
player state, and a single application changes nothing but `repeatMode`. -/
theorem cycleRepeatMode_cycles (s : PlayerState) :
    ((cycleRepeatMode s).repeatMode =
      (match s.repeatMode with
       | RepeatMode.off => RepeatMode.all
       | RepeatMode.all => RepeatMode.one
       | RepeatMode.one => RepeatMode.off)) ∧
    (cycleRepeatMode s) = { s with repeatMode := (cycleRepeatMode s).repeatMode } ∧
    cycleRepeatMode (cycleRepeatMode (cycleRepeatMode s)) = s := by
  obtain ⟨f₁, f₂, f₃, f₄, f₅, f₆, f₇, r⟩ := s
  cases r <;> exact ⟨rfl, rfl, rfl⟩

/-- C1: backend selection is a pure function of the file extension: an
extension in the allow-list `['m4a', 'mp4', 'aac']` goes straight to the
web (fallback) backend and never touches the native backend; any other
extension is attempted on the native (rust) backend first, and on native
load failure the same track is retried on the web backend. -/
theorem loadBackendAttempts_spec (path : String) (nativeLoadOk : Bool) :
    (webAudioExts.contains (extOf path) = true →
      loadBackendAttempts nativeLoadOk path = [PlaybackMode.web]) ∧
    (webAudioExts.contains (extOf path) = false →
      (loadBackendAttempts nativeLoadOk path).head? = some PlaybackMode.rust ∧
      (nativeLoadOk = true → loadBackendAttempts nativeLoadOk path = [PlaybackMode.rust]) ∧
      (nativeLoadOk = false →
        loadBackendAttempts nativeLoadOk path = [PlaybackMode.rust, PlaybackMode.web])) := by
  refine ⟨fun h => ?_, fun h => ?_⟩
  · simp only [loadBackendAttempts, useWebAudio, h, if_true]
  · cases nativeLoadOk <;> simp only [loadBackendAttempts, useWebAudio, h] <;> simp

/-- Witness for C1 at concrete inputs: an `.m4a` track goes straight to the
web backend; an `.ogg` track with a failing native load is attempted on
rust and then retried on web. -/
theorem loadBackendAttempts_spec_witness :
    loadBackendAttempts true "x/01.M4A" = [PlaybackMode.web] ∧
    loadBackendAttempts false "x/02.ogg" = [PlaybackMode.rust, PlaybackMode.web] :=
  ⟨(loadBackendAttempts_spec "x/01.M4A" true).1 (by decide),
   ((loadBackendAttempts_spec "x/02.ogg" false).2 (by decide)).2.2 rfl⟩

/-- C4: with a current track, a non-empty queue and repeat mode `'one'`,
`playNext` replays the current track (same track, hence same id) and sets
`isPlaying`, whatever `shuffle` is. -/
theorem playNext_repeat_one (rand : Nat) (s : PlayerState) (ct : Track)
    (hct : s.currentTrack = some ct) (hq : s.queue ≠ [])
    (hrep : s.repeatMode = RepeatMode.one) :
    (playNext rand s).currentTrack = some ct ∧ (playNext rand s).isPlaying = true := by
  have hq0 : ¬s.queue.length = 0 := by simpa [List.length_eq_zero] using hq
  simp [playNext, hct, hq0, hrep]

/-- Witness for C4 at a concrete two-track queue with shuffle on. -/
theorem playNext_repeat_one_witness :
    (playNext 7 { initialState with
                  currentTrack := some tb
                  queue := [ta, tb]
                  shuffle := true
                  repeatMode := RepeatMode.one }).currentTrack = some tb ∧
    (playNext 7 { initialState with
                  currentTrack := some tb
                  queue := [ta, tb]
                  shuffle := true
                  repeatMode := RepeatMode.one }).isPlaying = true :=
  playNext_repeat_one 7
    { initialState with
      currentTrack := some tb
      queue := [ta, tb]
      shuffle := true
      repeatMode := RepeatMode.one }
    tb rfl (by decide) rfl

/-- C6: deleting a work under the declared `ON DELETE CASCADE` foreign keys
leaves no row, in any child table, referencing the deleted work or any of
its (deleted) tracks: zero orphans remain. -/
theorem deleteWorkCascade_no_orphans (db : Database) (wid : Int)
    (hpk : (db.tracks.map TrackRow.id).Nodup) :
    ((deleteWorkCascade db wid).works.all (fun w => w.id != wid) = true) ∧
    ((deleteWorkCascade db wid).tracks.all (fun t => t.work_id != wid) = true) ∧
    ((deleteWorkCascade db wid).track_progress.all
      (fun r => r.work_id != wid && !((workTrackIds db wid).contains r.track_id)) = true) ∧
    ((deleteWorkCascade db wid).play_history.all
      (fun r => r.work_id != wid && !((workTrackIds db wid).contains r.track_id)) = true) ∧
    ((deleteWorkCascade db wid).playlist_tracks.all
      (fun r => !((workTrackIds db wid).contains r.track_id)) = true) ∧
    ((deleteWorkCascade db wid).work_tags.all (fun r => r.work_id != wid) = true) ∧
    ((deleteWorkCascade db wid).work_voice_actors.all (fun r => r.work_id != wid) = true) ∧
    ((deleteWorkCascade db wid).work_circles.all (fun r => r.work_id != wid) = true) := by
  have hcontains : ∀ (l : List Int) (a : Int), l.contains a = true ↔ a ∈ l := by
    intro l a
    simp [List.contains, List.elem_iff]
  have hwids : ∀ v : Int,
      v ∈ (db.works.filter (fun w => w.id != wid)).map WorkRow.id → v ≠ wid := by
    intro v hv
    obtain ⟨w, hw, rfl⟩ := List.mem_map.mp hv
    simpa using (List.mem_filter.mp hw).2
  have htids : ∀ x : Int,
      x ∈ (db.tracks.filter (fun t =>
        ((db.works.filter (fun w => w.id != wid)).map WorkRow.id).contains t.work_id)).map
          TrackRow.id →
      x ∉ workTrackIds db wid := by
    intro x hx hxd
    rw [workTrackIds] at hxd
    obtain ⟨t, ht, rfl⟩ := List.mem_map.mp hx
    obtain ⟨td, htd, hid⟩ := List.mem_map.mp hxd
    have ht1 : t ∈ db.tracks := (List.mem_filter.mp ht).1
    have ht2 := (List.mem_filter.mp ht).2
    have htd1 : td ∈ db.tracks := (List.mem_filter.mp htd).1
    have htdw : td.work_id = wid := by simpa using (List.mem_filter.mp htd).2
    have heq : t = td := List.inj_on_of_nodup_map hpk ht1 htd1 hid.symm
    have hmemw : t.work_id ∈ (db.works.filter (fun w => w.id != wid)).map WorkRow.id :=
      (hcontains _ _).mp ht2
    exact hwids _ hmemw (by rw [heq]; exact htdw)
  refine ⟨?_, ?_, ?_, ?_, ?_, ?_, ?_, ?_⟩ <;>
    simp only [deleteWorkCascade, cascadeClose, List.all_eq_true]
  · intro w hw
    exact (List.mem_filter.mp hw).2
  · intro t ht
    exact bne_iff_ne.mpr (hwids _ ((hcontains _ _).mp (List.mem_filter.mp ht).2))
  · intro r hr
    obtain ⟨h1, h2⟩ := (Bool.and_eq_true _ _) ▸ (List.mem_filter.mp hr).2
    have hid : r.work_id ≠ wid := hwids _ ((hcontains _ _).mp h1)
    have hni : (workTrackIds db wid).contains r.track_id = false :=
      Bool.eq_false_iff.mpr fun hc => htids _ ((hcontains _ _).mp h2) ((hcontains _ _).mp hc)
    rw [Bool.and_eq_true]
    exact ⟨bne_iff_ne.mpr hid, by rw [hni]; rfl⟩
  · intro r hr
    obtain ⟨h1, h2⟩ := (Bool.and_eq_true _ _) ▸ (List.mem_filter.mp hr).2
    have hid : r.work_id ≠ wid := hwids _ ((hcontains _ _).mp h1)
    have hni : (workTrackIds db wid).contains r.track_id = false :=
      Bool.eq_false_iff.mpr fun hc => htids _ ((hcontains _ _).mp h2) ((hcontains _ _).mp hc)
    rw [Bool.and_eq_true]
    exact ⟨bne_iff_ne.mpr hid, by rw [hni]; rfl⟩
  · intro r hr
    have h2 := (List.mem_filter.mp hr).2
    have hni : (workTrackIds db wid).contains r.track_id = false :=
      Bool.eq_false_iff.mpr fun hc => htids _ ((hcontains _ _).mp h2) ((hcontains _ _).mp hc)
    rw [hni]
    rfl
  · intro r hr
    exact bne_iff_ne.mpr (hwids _ ((hcontains _ _).mp (List.mem_filter.mp hr).2))
  · intro r hr
    exact bne_iff_ne.mpr (hwids _ ((hcontains _ _).mp (List.mem_filter.mp hr).2))
  · intro r hr
    exact bne_iff_ne.mpr (hwids _ ((hcontains _ _).mp (List.mem_filter.mp hr).2))

/-- Witness for C6: dropping work 1 from the concrete `exampleDb` leaves
no row referencing work 1 or its tracks in any child table. -/
theorem deleteWorkCascade_no_orphans_witness :
    ((deleteWorkCascade exampleDb 1).works.all (fun w => w.id != 1) = true) ∧
    ((deleteWorkCascade exampleDb 1).tracks.all (fun t => t.work_id != 1) = true) ∧
    ((deleteWorkCascade exampleDb 1).track_progress.all
      (fun r => r.work_id != 1 && !((workTrackIds exampleDb 1).contains r.track_id)) = true) ∧
    ((deleteWorkCascade exampleDb 1).play_history.all
      (fun r => r.work_id != 1 && !((workTrackIds exampleDb 1).contains r.track_id)) = true) ∧
    ((deleteWorkCascade exampleDb 1).playlist_tracks.all
      (fun r => !((workTrackIds exampleDb 1).contains r.track_id)) = true) ∧
    ((deleteWorkCascade exampleDb 1).work_tags.all (fun r => r.work_id != 1) = true) ∧
    ((deleteWorkCascade exampleDb 1).work_voice_actors.all (fun r => r.work_id != 1) = true) ∧
    ((deleteWorkCascade exampleDb 1).work_circles.all (fun r => r.work_id != 1) = true) :=
  deleteWorkCascade_no_orphans exampleDb 1 (by decide)

/-- C7: the sleep timer is armed only from the fixed preset list
15/30/45/60/90 minutes (stored as `minutes * 60` seconds), each countdown
tick decrements it by exactly one, the tick that would cross zero stops
playback and clears the timer, and cancelling clears the timer without
touching playback. -/
theorem sleepTimer_spec (s : SleepTimerState) (m n : Int) :
    sleepMenuPresets = [15, 30, 45, 60, 90] ∧
    (m ∈ sleepMenuPresets →
      setSleepTimer (some m) s = { s with sleepTimerSeconds := some (m * 60) }) ∧
    (s.sleepTimerSeconds = some n → 1 < n →
      sleepTimerTick s = { s with sleepTimerSeconds := some (n - 1) }) ∧
    (s.sleepTimerSeconds = some 1 →
      sleepTimerTick s = { sleepTimerSeconds := none, isPlaying := false }) ∧
    (setSleepTimer none s = { s with sleepTimerSeconds := none } ∧
      (setSleepTimer none s).isPlaying = s.isPlaying) := by
  refine ⟨rfl, fun _ => rfl, fun hn h1 => ?_, fun h1 => ?_, rfl, rfl⟩
  · have h0 : ¬n ≤ 0 := by omega
    have h1' : ¬n ≤ 1 := by omega
    simp [sleepTimerTick, hn, h0, h1']
  · simp [sleepTimerTick, h1]

/-- Witness for C7: arming at the 15-minute preset, ticking from 900 and
from 1 second, and cancelling, on a concrete playing state. -/
theorem sleepTimer_spec_witness :
    sleepMenuPresets = [15, 30, 45, 60, 90] ∧
    setSleepTimer (some 15) { sleepTimerSeconds := none, isPlaying := true } =
      { sleepTimerSeconds := some 900, isPlaying := true } ∧
    sleepTimerTick { sleepTimerSeconds := some 900, isPlaying := true } =
      { sleepTimerSeconds := some 899, isPlaying := true } ∧
    sleepTimerTick { sleepTimerSeconds := some 1, isPlaying := true } =
      { sleepTimerSeconds := none, isPlaying := false } ∧
    setSleepTimer none { sleepTimerSeconds := some 42, isPlaying := true } =
      { sleepTimerSeconds := none, isPlaying := true } := by
  obtain ⟨h₁, h₂, -, -, -⟩ :=
    sleepTimer_spec { sleepTimerSeconds := none, isPlaying := true } 15 900
  obtain ⟨-, -, h₃, -, -⟩ :=
    sleepTimer_spec { sleepTimerSeconds := some 900, isPlaying := true } 15 900
  obtain ⟨-, -, -, h₄, -⟩ :=
    sleepTimer_spec { sleepTimerSeconds := some 1, isPlaying := true } 15 900
  obtain ⟨-, -, -, -, h₅, -⟩ :=
    sleepTimer_spec { sleepTimerSeconds := some 42, isPlaying := true } 15 900
  exact ⟨h₁, h₂ (by decide), h₃ rfl (by decide), h₄ rfl, h₅⟩

/-- C3: with shuffle off and repeat mode not `'one'`, at the last queue
index `playNext` wraps to queue index 0 when repeat is `'all'` and is a
complete no-op when repeat is `'off'`. -/
theorem playNext_at_end (rand : Nat) (s : PlayerState) (ct : Track)
    (hct : s.currentTrack = some ct) (hshuf : s.shuffle = false)
    (hlast : s.queue.findIdx? (fun t => t.id == ct.id) = some (s.queue.length - 1))
    (hq : s.queue ≠ []) :
    (s.repeatMode = RepeatMode.all →
      playNext rand s = { s with currentTrack := s.queue.get? 0, isPlaying := true }) ∧
    (s.repeatMode = RepeatMode.off → playNext rand s = s) := by
  have hq0 : ¬s.queue.length = 0 := by simpa [List.length_eq_zero] using hq
  have hidx : findIndexJs (fun t => t.id == ct.id) s.queue = ((s.queue.length - 1 : Nat) : Int) :=
    findIndexJs_eq_of_findIdx? hlast
  have h1 : 1 ≤ s.queue.length := Nat.pos_of_ne_zero hq0
  have hcast : ((s.queue.length - 1 : Nat) : Int) + 1 = (s.queue.length : Int) := by omega
  constructor <;> intro hrep
  · have hone : ¬s.repeatMode = RepeatMode.one := by rw [hrep]; decide
    simp only [playNext, hct, hq0, if_neg, hone, hshuf, hidx, hcast, hrep, if_pos,
      Bool.false_eq_true, if_false, le_refl, ite_true, reduceIte, Int.toNat_zero]
    simp
  · have hone : ¬s.repeatMode = RepeatMode.one := by rw [hrep]; decide
    simp only [playNext, hct, hq0, if_neg, hone, hshuf, hidx, hcast, hrep, if_pos,
      Bool.false_eq_true, if_false, le_refl, ite_true, reduceIte]
    simp

/-- Witness for C3 on a concrete two-track queue with the current track at
the last index: repeat `'all'` wraps to the first track; repeat `'off'`
leaves the state untouched. -/
theorem playNext_at_end_witness :
    (playNext 0 { initialState with
                  currentTrack := some tb
                  queue := [ta, tb]
                  repeatMode := RepeatMode.all }).currentTrack = some ta ∧
    playNext 0 { initialState with currentTrack := some tb, queue := [ta, tb] } =
      { initialState with currentTrack := some tb, queue := [ta, tb] } := by
  constructor
  · have h := (playNext_at_end 0
      { initialState with
        currentTrack := some tb
        queue := [ta, tb]
        repeatMode := RepeatMode.all }
      tb rfl rfl (by decide) (by decide)).1 rfl
    rw [h]
    decide
  · exact (playNext_at_end 0
      { initialState with currentTrack := some tb, queue := [ta, tb] }
      tb rfl rfl (by decide) (by decide)).2 rfl

/-- C9 counterexample: with a current track, an *empty* queue and elapsed
time above 3 seconds, `playPrev` is not a no-op — its guard checks only
`currentTrack`, so the restart branch still runs and flips `isPlaying`. -/
theorem playPrev_empty_queue_not_noop :
    playPrev { isPlaying := false,
               currentTrack := some { id := 1, title := "a", path := "x/01.flac", duration := 100 },
               queue := [], volume := 1, currentTime := 5, duration := 100,
               shuffle := false, repeatMode := RepeatMode.off } ≠
      { isPlaying := false,
        currentTrack := some { id := 1, title := "a", path := "x/01.flac", duration := 100 },
        queue := [], volume := 1, currentTime := 5, duration := 100,
        shuffle := false, repeatMode := RepeatMode.off } := by
  decide

/-- C9 (amended): `playNext` is a total no-op whenever the current track is
null or the queue is empty; `playPrev` is a total no-op whenever the
current track is null, and, with an empty queue, also whenever the elapsed
time is at most 3 seconds; with a current track, an empty queue and
elapsed time above 3 seconds `playPrev` instead restarts the current track
(same track, `isPlaying` set to `true`). -/
theorem playNext_playPrev_guards (rand : Nat) (s : PlayerState) :
    ((s.currentTrack = none ∨ s.queue = []) → playNext rand s = s) ∧
    (s.currentTrack = none → playPrev s = s) ∧
    (s.queue = [] → s.currentTime ≤ 3 → playPrev s = s) ∧
    (∀ ct : Track, s.currentTrack = some ct → s.queue = [] → 3 < s.currentTime →
      playPrev s = { s with currentTrack := some ct, isPlaying := true }) := by
  refine ⟨fun h => ?_, fun h => ?_, fun hq ht => ?_, fun ct hct hq ht => ?_⟩
  · rcases h with h | h
    · simp [playNext, h]
    · cases hc : s.currentTrack with
      | none => simp [playNext, hc]
      | some ct => simp [playNext, hc, h]
  · simp [playPrev, h]
  · cases hc : s.currentTrack with
    | none => simp [playPrev, hc]
    | some ct =>
      have hnt : ¬3 < s.currentTime := not_lt.mpr ht
      simp [playPrev, hc, hnt, hq, findIndexJs]
  · simp [playPrev, hct, ht]

/-- Witness for the amended C9 on concrete states: `playNext` with no
current track, `playPrev` with no current track, `playPrev` with an empty
queue at elapsed time 2, and `playPrev` with an empty queue at elapsed
time 5, which restarts the current track and sets `isPlaying`. -/
theorem playNext_playPrev_guards_witness :
    playNext 3 { initialState with queue := [ta] } = { initialState with queue := [ta] } ∧
    playPrev { initialState with isPlaying := true, currentTime := 9 } =
      { initialState with isPlaying := true, currentTime := 9 } ∧
    playPrev { initialState with isPlaying := true, currentTrack := some ta, currentTime := 2 } =
      { initialState with isPlaying := true, currentTrack := some ta, currentTime := 2 } ∧
    playPrev { initialState with currentTrack := some ta, currentTime := 5 } =
      { initialState with isPlaying := true, currentTrack := some ta, currentTime := 5 } :=
  ⟨(playNext_playPrev_guards 3 { initialState with queue := [ta] }).1 (Or.inl rfl),
   (playNext_playPrev_guards 0
      { initialState with isPlaying := true, currentTime := 9 }).2.1 rfl,
   (playNext_playPrev_guards 0
      { initialState with isPlaying := true, currentTrack := some ta, currentTime := 2 }).2.2.1
     rfl (by norm_num),
   (playNext_playPrev_guards 0
      { initialState with currentTrack := some ta, currentTime := 5 }).2.2.2
     ta rfl rfl (by norm_num)⟩

/-- C2: `playPrev` policy, together with the track-load effect it
triggers.  With a current track and a non-empty queue: elapsed time above
3 seconds restarts the current track (same track id, playing, UI position
reset to 0 by the reload effect — assuming the track has a non-empty file
path, which every scanned track does); at most 3 seconds with a prior
queue index moves to that prior track; and with no prior index nothing
changes. -/
theorem playPrev_policy (s : PlayerState) (ui : UiState) (ct : Track)
    (hct : s.currentTrack = some ct) (_hq : s.queue ≠ []) :
    (3 < s.currentTime → ct.path ≠ "" →
      (playPrevSys s ui).1.currentTrack = some ct ∧
      (playPrevSys s ui).1.isPlaying = true ∧
      (playPrevSys s ui).2.currentTime = 0) ∧
    (∀ i : Nat, s.currentTime ≤ 3 →
      s.queue.findIdx? (fun t => t.id == ct.id) = some i → 0 < i →
      (playPrevSys s ui).1.currentTrack = s.queue.get? (i - 1) ∧
      (playPrevSys s ui).1.isPlaying = true) ∧
    (s.currentTime ≤ 3 →
      (s.queue.findIdx? (fun t => t.id == ct.id) = none ∨
       s.queue.findIdx? (fun t => t.id == ct.id) = some 0) →
      playPrevSys s ui = (s, ui)) := by
  refine ⟨fun ht hpath => ?_, fun i ht hfind hi => ?_, fun ht hfind => ?_⟩
  · have hw : playPrevWrites s = true := by simp [playPrevWrites, hct, ht]
    have hp : playPrev s = { s with currentTrack := some ct, isPlaying := true } := by
      simp [playPrev, hct, ht]
    simp [playPrevSys, hw, hp, hpath, trackChangeReset]
  · have hnt : ¬3 < s.currentTime := not_lt.mpr ht
    have hidx : findIndexJs (fun t => t.id == ct.id) s.queue = (i : Int) :=
      findIndexJs_eq_of_findIdx? hfind
    have hip : (0 : Int) < (i : Int) := by exact_mod_cast hi
    have hw : playPrevWrites s = true := by
      simp [playPrevWrites, hct, hnt, hidx, hip]
    have hp : playPrev s =
        { s with currentTrack := s.queue.get? (((i : Int)) - 1).toNat, isPlaying := true } := by
      simp [playPrev, hct, hnt, hidx, hip]
    have htn : (((i : Int)) - 1).toNat = i - 1 := by omega
    rw [playPrevSys, hw]
    simp only [hp, htn]
    cases hg : s.queue.get? (i - 1) with
    | none =>
      exfalso
      have hlt : i < s.queue.length := findIdx?_lt_length hfind
      rw [List.get?_eq_none] at hg
      omega
    | some t => cases ht' : decide (t.path ≠ "") <;> simp_all
  · have hnt : ¬3 < s.currentTime := not_lt.mpr ht
    have hw : playPrevWrites s = false := by
      rcases hfind with hf | hf <;>
        simp [playPrevWrites, hct, hnt, findIndexJs, hf]
    have hp : playPrev s = s := by
      rcases hfind with hf | hf <;>
        simp [playPrev, hct, hnt, findIndexJs, hf]
    simp [playPrevSys, hw, hp]

/-- Witness for C2 on concrete states: restart at elapsed 5 s (same track,
UI position back to 0), move to the prior track at elapsed 1 s, and no-op
at elapsed 1 s when the current track is at index 0. -/
theorem playPrev_policy_witness :
    (playPrevSys { initialState with
                   currentTrack := some tb
                   queue := [ta, tb]
                   currentTime := 5 }
        { currentTime := 5, duration := 2, playbackMode := some PlaybackMode.rust }).1.currentTrack =
      some tb ∧
    (playPrevSys { initialState with
                   currentTrack := some tb
                   queue := [ta, tb]
                   currentTime := 5 }
        { currentTime := 5, duration := 2, playbackMode := some PlaybackMode.rust }).2.currentTime =
      0 ∧
    (playPrevSys { initialState with
                   currentTrack := some tb
                   queue := [ta, tb]
                   currentTime := 1 }
        { currentTime := 30, duration := 2, playbackMode := some PlaybackMode.rust }).1.currentTrack =
      some ta ∧
    playPrevSys { initialState with
                  currentTrack := some ta
                  queue := [ta, tb]
                  currentTime := 1 }
        { currentTime := 30, duration := 1, playbackMode := some PlaybackMode.rust } =
      ({ initialState with
         currentTrack := some ta
         queue := [ta, tb]
         currentTime := 1 },
       { currentTime := 30, duration := 1, playbackMode := some PlaybackMode.rust }) := by
  refine ⟨?_, ?_, ?_, ?_⟩
  · exact ((playPrev_policy _ _ tb rfl (by decide)).1 (by norm_num) (by decide)).1
  · exact ((playPrev_policy _ _ tb rfl (by decide)).1 (by norm_num) (by decide)).2.2
  · have h := ((playPrev_policy
      { initialState with
        currentTrack := some tb
        queue := [ta, tb]
        currentTime := 1 }
      { currentTime := 30, duration := 2, playbackMode := some PlaybackMode.rust }
      tb rfl (by decide)).2.1 1 (by norm_num) (by decide) (by decide)).1
    rw [h]
    decide
  · exact (playPrev_policy _ _ ta rfl (by decide)).2.2 (by norm_num) (Or.inr (by decide))

/-- C5: with shuffle on, repeat mode not `'one'` and the current track at
(first) queue index `ci`, `playNext` is a no-op on a one-track queue; on a
longer queue it draws its target from `otherIndices` — a duplicate-free
enumeration of exactly the queue indices other than `ci`, indexed at the
uniformly distributed position `rand % length` — so the chosen index is
never the current one, and the chosen track starts playing. -/
theorem playNext_shuffle (rand : Nat) (s : PlayerState) (ct : Track) (ci : Nat)
    (hshuf : s.shuffle = true) (hrep : s.repeatMode ≠ RepeatMode.one)
    (hct : s.currentTrack = some ct)
    (hci : s.queue.findIdx? (fun t => t.id == ct.id) = some ci) :
    (s.queue.length = 1 → playNext rand s = s) ∧
    (2 ≤ s.queue.length →
      (otherIndices s.queue.length (ci : Int)).Nodup ∧
      (∀ j : Nat, j ∈ otherIndices s.queue.length (ci : Int) ↔
        (j < s.queue.length ∧ j ≠ ci)) ∧
      ∃ k : Nat,
        (otherIndices s.queue.length (ci : Int)).get?
            (rand % (otherIndices s.queue.length (ci : Int)).length) = some k ∧
        k ≠ ci ∧
        (playNext rand s).currentTrack = s.queue.get? k ∧
        (playNext rand s).isPlaying = true) := by
  have hlt : ci < s.queue.length := findIdx?_lt_length hci
  have hq0 : ¬s.queue.length = 0 := by omega
  have hidx : findIndexJs (fun t => t.id == ct.id) s.queue = (ci : Int) :=
    findIndexJs_eq_of_findIdx? hci
  constructor
  · intro hn
    have hci0 : ci = 0 := by omega
    have hothers : (otherIndices s.queue.length (ci : Int)).length = 0 := by
      rw [hn, hci0]
      decide
    simp only [playNext, hct, hq0, if_neg, hrep, hshuf, hidx, hothers, ite_true, reduceIte,
      if_false, Bool.false_eq_true, if_pos, ite_self]
  · intro hn
    refine ⟨nodup_otherIndices _ _, fun j => ?_, ?_⟩
    · rw [mem_otherIndices]
      constructor
      · rintro ⟨h1, h2⟩
        exact ⟨h1, fun hh => h2 (by exact_mod_cast congrArg (Nat.cast : Nat → Int) hh)⟩
      · rintro ⟨h1, h2⟩
        exact ⟨h1, fun hh => h2 (by exact_mod_cast hh)⟩
    · have hmem0 : (if ci = 0 then 1 else 0) ∈ otherIndices s.queue.length (ci : Int) := by
        rw [mem_otherIndices]
        by_cases hc : ci = 0 <;> simp [hc] <;> omega
      have hpos : 0 < (otherIndices s.queue.length (ci : Int)).length :=
        List.length_pos.mpr (List.ne_nil_of_mem hmem0)
      have hmod : rand % (otherIndices s.queue.length (ci : Int)).length <
          (otherIndices s.queue.length (ci : Int)).length := Nat.mod_lt _ hpos
      obtain ⟨k, hk⟩ : ∃ k, (otherIndices s.queue.length (ci : Int)).get?
          (rand % (otherIndices s.queue.length (ci : Int)).length) = some k := by
        rw [List.get?_eq_get hmod]
        exact ⟨_, rfl⟩
      have hkmem : k ∈ otherIndices s.queue.length (ci : Int) := List.get?_mem hk
      have hkspec := mem_otherIndices.mp hkmem
      have hklt : k < s.queue.length := hkspec.1
      have hkne : k ≠ ci := fun hh => hkspec.2 (by exact_mod_cast congrArg (Nat.cast : Nat → Int) hh)
      refine ⟨k, hk, hkne, ?_, ?_⟩ <;>
      · have hol : ¬(otherIndices s.queue.length (ci : Int)).length = 0 := by omega
        have hwrap : ¬((s.queue.length : Int) ≤ (k : Int)) := by
          exact_mod_cast Nat.not_le.mpr hklt
        simp only [playNext, hct, hq0, if_neg, hrep, hshuf, hidx, hol, ite_true, reduceIte,
          if_false, Bool.false_eq_true, if_pos, hk, Option.map_some', hwrap, Int.toNat_natCast]
        simp [hwrap, Int.toNat_natCast]

/-- Witness for C5: a shuffled `playNext` on a concrete three-track queue
starts playing, and on a concrete one-track queue is a no-op. -/
theorem playNext_shuffle_witness :
    (playNext 4 { initialState with
                  currentTrack := some tb
                  queue := [ta, tb, tc]
                  shuffle := true }).isPlaying = true ∧
    playNext 4 { initialState with
                 currentTrack := some ta
                 queue := [ta]
                 shuffle := true } =
      { initialState with
        currentTrack := some ta
        queue := [ta]
        shuffle := true } := by
  constructor
  · obtain ⟨-, -, k, -, -, -, hip⟩ := (playNext_shuffle 4
      { initialState with
        currentTrack := some tb
        queue := [ta, tb, tc]
        shuffle := true }
      tb 1 rfl (by decide) rfl (by decide)).2 (by decide)
    exact hip
  · exact (playNext_shuffle 4
      { initialState with
        currentTrack := some ta
        queue := [ta]
        shuffle := true }
      ta 0 rfl (by decide) rfl (by decide)).1 rfl

/-- C8: on the fallback (web audio) path, the spectrum computed from a
byte frequency-data array of the analyser's size (128 bins, values 0–255)
has exactly 64 bins, bin `i` is the byte sampled at `i * step` divided by
255, and every bin lies in `[0, 1]`. -/
theorem webSpectrum_spec (data : List Nat) (hlen : data.length = frequencyBinCount)
    (hbyte : ∀ v ∈ data, v ≤ 255) :
    (webSpectrum data).length = showBars ∧
    (∀ i, i < showBars →
      (webSpectrum data).get? i =
        some ((data.getD (i * (data.length / showBars)) 0 : ℚ) / 255)) ∧
    (∀ q ∈ webSpectrum data, 0 ≤ q ∧ q ≤ 1) := by
  refine ⟨by simp [webSpectrum], fun i hi => ?_, fun q hq => ?_⟩
  · simp [webSpectrum, List.get?_eq_getElem?, List.getElem?_map, List.getElem?_range hi]
  · simp only [webSpectrum, List.mem_map, List.mem_range] at hq
    obtain ⟨i, hi, rfl⟩ := hq
    have hvle : data.getD (i * (data.length / showBars)) 0 ≤ 255 := by
      rw [List.getD_eq_getElem?_getD]
      rcases hg : data[i * (data.length / showBars)]? with - | w
      · simp
      · simpa using hbyte w (List.getElem?_mem hg)
    constructor
    · positivity
    · rw [div_le_one (by norm_num)]
      exact_mod_cast le_trans hvle (by norm_num)

/-- Witness for C8 on the constant 128-byte array of value 200: 64 bins,
and bin 5 is `200 / 255`. -/
theorem webSpectrum_spec_witness :
    (webSpectrum (List.replicate 128 200)).length = showBars ∧
    (webSpectrum (List.replicate 128 200)).get? 5 = some ((200 : ℚ) / 255) := by
  have h := webSpectrum_spec (List.replicate 128 200)
    (by simp [frequencyBinCount, analyserFftSize])
    (fun v hv => by rw [List.eq_of_mem_replicate hv]; norm_num)
  refine ⟨h.1, ?_⟩
  have h5 := h.2.1 5 (by norm_num [showBars])
  have hg : (List.replicate 128 (200 : Nat)).getD
      (5 * ((List.replicate 128 (200 : Nat)).length / showBars)) 0 = 200 := by
    simp [showBars]
  rw [h5, hg]
  norm_num

end AsmrLibrary
